import Mathlib

set_option maxRecDepth 2000

/-!
# MetMonitor-WindSensor: verification of the ingestion / aggregation core

Shallow embedding of the repository's core logic:

* `full_code.py` — serial ingestion loop: `check_sensor` / `update_blank`
  (outage tracking and backfill), the frame-decode expressions of the main
  loop, and the day-rollover block.
* `Postprocess.py` — `calc_degrees`, `roll_avg`, `roll_gust` and the
  per-window aggregation pipeline of the main loop.
* `Sensor pages/Windsensor1.py` — `get_data`, the bounded-retry reader.

Modelling conventions:

* Timestamps are seconds (`Nat`); day `d` covers `[86400*d, 86400*(d+1))`.
* Python floats for the wind components are modelled as exact reals: `u`/`v`
  are computed with `Real.cos`/`Real.sin` and rounded to 4 decimals, exactly
  mirroring the formulas of the source.  Parsed direction/speed values are
  rationals.
* pandas `NaN` cells are modelled as `Option` with `none` for `NaN`.
* `.round(n)` in pandas/numpy rounds ties half-to-even while Mathlib's
  `round` rounds half up; no value appearing in any theorem below lies on a
  tie, so the two agree on everything stated here.
-/

/-- One row of the raw per-day partition file
(`DateTime, WindDirection (Deg), WindSpeed (m/s), U, V`).
`none` models an empty/NaN cell. -/
structure RawRow where
  time : Nat
  wd : Option ℤ
  ws : Option ℚ
  u : Option ℝ
  v : Option ℝ

/-- A placeholder row as appended by `update_blank`: all measured fields NaN. -/
def blankRow (t : Nat) : RawRow := ⟨t, none, none, none, none⟩

/-- Source: `math.radians(float(wd))`. -/
noncomputable def radians (d : ℤ) : ℝ := (d : ℝ) * Real.pi / 180

/-- Python `round(x, 4)`. -/
noncomputable def round4 (x : ℝ) : ℝ := (round (x * 10000) : ℤ) / 10000

/-- Source: `u_comp = round(-float(ws) * math.cos(w_radian), 4)` — south→north component. -/
noncomputable def uComp (wd : ℤ) (ws : ℚ) : ℝ := round4 (-(ws : ℝ) * Real.cos (radians wd))

/-- Source: `v_comp = round(-float(ws) * math.sin(w_radian), 4)` — east→west component. -/
noncomputable def vComp (wd : ℤ) (ws : ℚ) : ℝ := round4 (-(ws : ℝ) * Real.sin (radians wd))

/-- The row appended by the main loop for a decoded frame at second `t`. -/
noncomputable def dataRow (t : Nat) (wd : ℤ) (ws : ℚ) : RawRow :=
  ⟨t, some wd, some ws, some (uComp wd ws), some (vComp wd ws)⟩

/-- The rows appended by the backfill loop of `check_sensor`:
`for i in range(int(duration_seconds)): update_blank(sensor_timestampoff + timedelta(seconds=i))`. -/
def backfillRows (offT D : Nat) : List RawRow :=
  (List.range D).map (fun i => blankRow (offT + i))

/-- The ingestion loop's mutable state: the `sensor_status` flag and
`sensor_timestampoff` global of `full_code.py`, the accumulated raw rows
(the in-memory lists, which `update_data` flushes verbatim to the day file),
and the rows of the sensor-status (outage log) file as `(off, on, duration)`. -/
structure IngestState where
  sensor_status : Bool
  sensor_timestampoff : Nat
  rows : List RawRow
  outageLog : List (Nat × Nat × Nat)

/-- Program start: `sensor_status = True`, empty lists. -/
def initState : IngestState := ⟨true, 0, [], []⟩

/-- One poll of the ingestion loop at second `now`, given the decoded frame
(`none` = `ser.readline()` returned no data).  Mirrors `check_sensor`
followed by the decode-and-append body of the main loop:

* data present, previously Off: record the on-timestamp, log the outage with
  `duration = now - sensor_timestampoff`, backfill one blank row per whole
  second of the outage starting at `sensor_timestampoff`, flip to On, then
  append the decoded row;
* data present, already On: append the decoded row;
* no data, previously On: record `sensor_timestampoff = now`, append one
  blank row at `now`, flip to Off;
* no data, already Off: nothing. -/
noncomputable def step (st : IngestState) (now : Nat) (data : Option (ℤ × ℚ)) : IngestState :=
  match data with
  | some (wd, ws) =>
    let st1 :=
      if st.sensor_status then st
      else
        { st with
          sensor_status := true
          outageLog := st.outageLog ++
            [(st.sensor_timestampoff, now, now - st.sensor_timestampoff)]
          rows := st.rows ++ backfillRows st.sensor_timestampoff (now - st.sensor_timestampoff) }
    { st1 with rows := st1.rows ++ [dataRow now wd ws] }
  | none =>
    if st.sensor_status then
      { st with
        sensor_status := false
        sensor_timestampoff := now
        rows := st.rows ++ [blankRow now] }
    else st

/-- Run the ingestion loop over a list of polls, one per second, the first
at second `t0` (the 1 Hz nominal cadence of the serial link). -/
noncomputable def runSem (st : IngestState) (t0 : Nat) : List (Option (ℤ × ℚ)) → IngestState
  | [] => st
  | p :: ps => runSem (step st t0 p) (t0 + 1) ps

/-- The timestamps stored in the Raw Series Store, in append order. -/
def times (st : IngestState) : List Nat := st.rows.map RawRow.time

/-- Decidable test for a placeholder row (all measured fields absent). -/
def isBlank (r : RawRow) : Bool :=
  r.wd.isNone && r.ws.isNone && r.u.isNone && r.v.isNone

/-! ## C1: gap structure of the stored timestamps -/

/-- Adjacent stored timestamps advance by 0 or 1 second. -/
def Chain01 (l : List Nat) : Prop := List.Chain' (fun a b => b = a ∨ b = a + 1) l

/-- Predicate: `l` contains every second of `[t0, u)`. -/
def Cov (t0 u : Nat) (l : List Nat) : Prop := ∀ k, t0 ≤ k → k < u → k ∈ l

/-- Loop invariant of the ingestion state machine, where `t` is the time of
the next poll and `t0` the time of the first poll. -/
def IngInv (t0 t : Nat) (st : IngestState) : Prop :=
  t0 ≤ t ∧ Chain01 (times st) ∧
  (st.sensor_status = true →
    (t = t0 ∧ st.rows = []) ∨
    ((times st).getLast? = some (t - 1) ∧ t0 < t ∧ Cov t0 t (times st))) ∧
  (st.sensor_status = false →
    t0 ≤ st.sensor_timestampoff ∧ st.sensor_timestampoff < t ∧
    (times st).getLast? = some st.sensor_timestampoff ∧
    Cov t0 (st.sensor_timestampoff + 1) (times st))

theorem chain01_range' (n s : Nat) :
    List.Chain' (fun a b => b = a ∨ b = a + 1) (List.range' s n) := by
  induction n generalizing s with
  | zero => simp
  | succ m ih =>
    rw [List.range'_succ]
    refine List.chain'_cons'.2 ⟨?_, ih (s + 1)⟩
    intro y hy
    rw [List.head?_range'] at hy
    by_cases hm : m = 0
    · simp [hm] at hy
    · simp [hm] at hy
      omega

theorem getLast?_range'_of_pos (n s : Nat) (h : 0 < n) :
    (List.range' s n).getLast? = some (s + n - 1) := by
  obtain ⟨m, rfl⟩ : ∃ m, n = m + 1 := ⟨n - 1, by omega⟩
  rw [List.range'_concat, List.getLast?_concat]
  congr 1
  omega

theorem times_backfillRows (offT D : Nat) :
    (backfillRows offT D).map RawRow.time = List.range' offT D := by
  simp [backfillRows, List.range'_eq_map_range, Function.comp, blankRow]

/-- Invariant preservation by one poll. -/
theorem inv_step (t0 t : Nat) (st : IngestState) (p : Option (ℤ × ℚ))
    (h : IngInv t0 t st) : IngInv t0 (t + 1) (step st t p) := by
  obtain ⟨hle, hch, hon, hoff⟩ := h
  match p with
  | none =>
    by_cases hs : st.sensor_status = true
    · -- sensor goes Offline: one blank row at `t`
      have hb : step st t none =
          { st with
              sensor_status := false
              sensor_timestampoff := t
              rows := st.rows ++ [blankRow t] } := by
        simp [step, hs]
      rw [hb]
      have htimes : times { st with
          sensor_status := false
          sensor_timestampoff := t
          rows := st.rows ++ [blankRow t] } = times st ++ [t] := by
        simp [times, blankRow]
      refine ⟨by omega, ?_, ?_, ?_⟩
      · rw [htimes]
        refine List.chain'_append.2 ⟨hch, List.chain'_singleton _, ?_⟩
        intro x hx y hy
        simp at hy
        subst hy
        rcases hon hs with ⟨rfl, hrows⟩ | ⟨hlast, hpos, _⟩
        · simp [times, hrows] at hx
        · rw [hlast] at hx
          simp at hx
          omega
      · intro habs
        simp at habs
      · intro _
        dsimp only
        rw [htimes]
        refine ⟨hle, by omega, by simp, ?_⟩
        intro k hk1 hk2
        rcases hon hs with ⟨rfl, hrows⟩ | ⟨_, hpos, hcov⟩
        · have : k = t := by omega
          simp [this]
        · rcases Nat.lt_or_ge k t with hk | hk
          · exact List.mem_append_left _ (hcov k hk1 hk)
          · have : k = t := by omega
            simp [this]
    · -- already Offline: no change
      have hs' : st.sensor_status = false := by
        revert hs
        cases st.sensor_status <;> simp
      have hb : step st t none = st := by
        simp [step, hs']
      rw [hb]
      refine ⟨by omega, hch, ?_, ?_⟩
      · intro habs
        rw [habs] at hs'
        cases hs'
      · intro _
        obtain ⟨h1, h2, h3, h4⟩ := hoff hs'
        exact ⟨h1, by omega, h3, h4⟩
  | some (wd, ws) =>
    by_cases hs : st.sensor_status = true
    · -- already Online: append the decoded row at `t`
      have hb : step st t (some (wd, ws)) =
          { st with rows := st.rows ++ [dataRow t wd ws] } := by
        simp [step, hs]
      rw [hb]
      have htimes : times { st with rows := st.rows ++ [dataRow t wd ws] } =
          times st ++ [t] := by
        simp [times, dataRow]
      refine ⟨by omega, ?_, ?_, ?_⟩
      · rw [htimes]
        refine List.chain'_append.2 ⟨hch, List.chain'_singleton _, ?_⟩
        intro x hx y hy
        simp at hy
        subst hy
        rcases hon hs with ⟨rfl, hrows⟩ | ⟨hlast, hpos, _⟩
        · simp [times, hrows] at hx
        · rw [hlast] at hx
          simp at hx
          omega
      · intro _
        refine Or.inr ⟨?_, by omega, ?_⟩
        · rw [htimes]
          simp
        · intro k hk1 hk2
          rw [htimes]
          rcases hon hs with ⟨rfl, hrows⟩ | ⟨_, hpos, hcov⟩
          · have : k = t := by omega
            simp [this]
          · rcases Nat.lt_or_ge k t with hk | hk
            · exact List.mem_append_left _ (hcov k hk1 hk)
            · have : k = t := by omega
              simp [this]
      · intro habs
        simp [hs] at habs
    · -- Offline → Online: backfill `[offT, t)`, then the decoded row at `t`
      have hs' : st.sensor_status = false := by
        revert hs
        cases st.sensor_status <;> simp
      obtain ⟨h1, h2, h3, h4⟩ := hoff hs'
      set offT := st.sensor_timestampoff with hofft
      have hD : 0 < t - offT := by omega
      have hb : step st t (some (wd, ws)) =
          { st with
              sensor_status := true
              outageLog := st.outageLog ++ [(offT, t, t - offT)]
              rows := (st.rows ++ backfillRows offT (t - offT)) ++ [dataRow t wd ws] } := by
        simp [step, hs']
      rw [hb]
      have htimes : times { st with
          sensor_status := true
          outageLog := st.outageLog ++ [(offT, t, t - offT)]
          rows := (st.rows ++ backfillRows offT (t - offT)) ++ [dataRow t wd ws] } =
          times st ++ (List.range' offT (t - offT) ++ [t]) := by
        simp [times, dataRow, times_backfillRows]
      refine ⟨by omega, ?_, ?_, ?_⟩
      · rw [htimes]
        refine List.chain'_append.2 ⟨hch, ?_, ?_⟩
        · refine List.chain'_append.2
            ⟨chain01_range' _ _, List.chain'_singleton _, ?_⟩
          intro x hx y hy
          simp at hy
          subst hy
          rw [getLast?_range'_of_pos _ _ hD] at hx
          simp at hx
          omega
        · intro x hx y hy
          rw [h3] at hx
          simp at hx
          subst hx
          rw [List.head?_append, List.head?_range'] at hy
          have : ¬ (t - offT = 0) := by omega
          simp [this] at hy
          subst hy
          exact Or.inl rfl
      · intro _
        refine Or.inr ⟨?_, by omega, ?_⟩
        · rw [htimes, ← List.append_assoc, List.getLast?_concat]
          simp
        · intro k hk1 hk2
          rw [htimes]
          rcases Nat.lt_or_ge k (offT + 1) with hk | hk
          · exact List.mem_append_left _ (h4 k hk1 hk)
          · rcases Nat.lt_or_ge k t with hk' | hk'
            · refine List.mem_append_right _ (List.mem_append_left _ ?_)
              rw [List.mem_range'_1]
              omega
            · have : k = t := by omega
              subst this
              simp
      · intro habs
        simp at habs

/-- Invariant preservation by a whole run. -/
theorem inv_runSem (t0 : Nat) (ps : List (Option (ℤ × ℚ))) :
    ∀ (t : Nat) (st : IngestState), IngInv t0 t st →
      IngInv t0 (t + ps.length) (runSem st t ps) := by
  induction ps with
  | nil => intro t st h; simpa [runSem] using h
  | cons p ps ih =>
    intro t st h
    have h' := ih (t + 1) (step st t p) (inv_step t0 t st p h)
    rw [runSem]
    have : t + (p :: ps).length = (t + 1) + ps.length := by
      simp
      omega
    rw [this]
    exact h'

theorem inv_initState (t0 : Nat) : IngInv t0 t0 initState := by
  refine ⟨le_rfl, ?_, ?_, ?_⟩
  · simp [times, initState, Chain01]
  · intro _; exact Or.inl ⟨rfl, rfl⟩
  · intro habs; simp [initState] at habs

/-- C1: the claim "consecutive stored samples' timestamps differ by exactly
one second, with no duplicated seconds" is false: when the sensor goes
Offline at second 0 and returns at second 1, `check_sensor` appends a blank
row at second 0 on the transition and the backfill loop appends a second
blank row at second 0 again, so the store reads `[0, 0, 1]`. -/
theorem c1_counterexample :
    times (runSem initState 0 [none, some (129, 21/10)]) = [0, 0, 1] ∧
    ¬ List.Chain' (fun a b : Nat => b = a + 1) [0, 0, 1] :=
  ⟨rfl, fun h => absurd (List.chain'_cons.1 h).1 (by decide)⟩

/-- C1 (amended): at every point, consecutive stored timestamps advance by
0 or 1 second (never more: no gap is ever created), and whenever the sensor
is Online every elapsed second since start-up is present in the Raw Series
Store; the Offline-transition second, however, is stored twice. -/
theorem c1_store_chain_and_coverage (polls : List (Option (ℤ × ℚ))) (t0 : Nat) :
    Chain01 (times (runSem initState t0 polls)) ∧
    ((runSem initState t0 polls).sensor_status = true →
      ∀ k, k < polls.length → (t0 + k) ∈ times (runSem initState t0 polls)) := by
  obtain ⟨hle, hch, hon, hoff⟩ :=
    inv_runSem t0 polls t0 initState (inv_initState t0)
  refine ⟨hch, ?_⟩
  intro hs k hk
  rcases hon hs with ⟨heq, _⟩ | ⟨_, _, hcov⟩
  · omega
  · exact hcov (t0 + k) (by omega) (by omega)

theorem c1_store_chain_and_coverage_witness :
    (0 + 0) ∈ times (runSem initState 0 [none, some (129, 21/10)]) ∧
    (0 + 1) ∈ times (runSem initState 0 [none, some (129, 21/10)]) := by
  have h := c1_store_chain_and_coverage [none, some (129, 21/10)] 0
  exact ⟨h.2 rfl 0 (by decide), h.2 rfl 1 (by decide)⟩

/-! ## C2: backfill volume per outage -/

theorem isBlank_blankRow (t : Nat) : isBlank (blankRow t) = true := rfl

theorem isBlank_dataRow (t : Nat) (wd : ℤ) (ws : ℚ) :
    isBlank (dataRow t wd ws) = false := rfl

theorem length_backfillRows (a b : Nat) : (backfillRows a b).length = b := by
  simp [backfillRows]

theorem filter_isBlank_backfillRows (a b : Nat) :
    (backfillRows a b).filter isBlank = backfillRows a b := by
  refine List.filter_eq_self.2 ?_
  intro r hr
  simp [backfillRows] at hr
  obtain ⟨i, _, rfl⟩ := hr
  rfl

theorem step_none_offline (st : IngestState) (t : Nat)
    (h : st.sensor_status = false) : step st t none = st := by
  simp [step, h]

theorem runSem_replicate_none_offline (m : Nat) :
    ∀ (st : IngestState) (t : Nat), st.sensor_status = false →
      runSem st t (List.replicate m none) = st := by
  induction m with
  | zero =>
    intro st t _
    rfl
  | succ k ih =>
    intro st t h
    rw [List.replicate_succ, runSem, step_none_offline st t h]
    exact ih st (t + 1) h

theorem runSem_append (l1 l2 : List (Option (ℤ × ℚ))) :
    ∀ (st : IngestState) (t : Nat),
      runSem st t (l1 ++ l2) = runSem (runSem st t l1) (t + l1.length) l2 := by
  induction l1 with
  | nil =>
    intro st t
    simp [runSem]
  | cons p ps ih =>
    intro st t
    rw [List.cons_append, runSem, runSem, ih]
    congr 1
    simp
    omega

/-- C2 (amended): for an outage of `D` whole seconds the backfill loop of
`check_sensor` inserts exactly `D` placeholder rows, all-fields-absent,
timestamped at the `D` consecutive seconds of `[offTimestamp, onTimestamp)`;
but the pipeline as a whole stores `D + 1` placeholders for the outage,
because one placeholder was already appended at `offTimestamp` when the
sensor went Offline — that second ends up stored twice. -/
theorem c2_backfill_rows_per_outage (t0 D : Nat) (wd : ℤ) (ws : ℚ) (hD : 0 < D) :
    ((runSem initState t0 (List.replicate D none ++ [some (wd, ws)])).rows.filter
        isBlank).length = D + 1 ∧
    (runSem initState t0 (List.replicate D none ++ [some (wd, ws)])).outageLog
        = [(t0, t0 + D, D)] ∧
    (backfillRows t0 D).length = D ∧
    (∀ r ∈ backfillRows t0 D, isBlank r = true ∧ t0 ≤ r.time ∧ r.time < t0 + D) := by
  obtain ⟨m, rfl⟩ : ∃ m, D = m + 1 := ⟨D - 1, by omega⟩
  have h1 : runSem initState t0 (List.replicate (m + 1) none ++ [some (wd, ws)]) =
      step { sensor_status := false
             sensor_timestampoff := t0
             rows := [blankRow t0]
             outageLog := [] }
        (t0 + 1 + m) (some (wd, ws)) := by
    rw [List.replicate_succ, List.cons_append, runSem]
    have hstep : step initState t0 none =
        { sensor_status := false
          sensor_timestampoff := t0
          rows := [blankRow t0]
          outageLog := [] } := by
      simp [step, initState]
    rw [hstep, runSem_append,
      runSem_replicate_none_offline m _ (t0 + 1) rfl]
    simp [runSem]
  rw [h1]
  have hT : t0 + 1 + m - t0 = m + 1 := by omega
  have h2 : step
      { sensor_status := false
        sensor_timestampoff := t0
        rows := [blankRow t0]
        outageLog := [] } (t0 + 1 + m) (some (wd, ws)) =
      { sensor_status := true
        sensor_timestampoff := t0
        rows := ([blankRow t0] ++ backfillRows t0 (m + 1)) ++
          [dataRow (t0 + 1 + m) wd ws]
        outageLog := [(t0, t0 + 1 + m, m + 1)] } := by
    simp [step, hT]
  rw [h2]
  refine ⟨?_, ?_, length_backfillRows t0 (m + 1), ?_⟩
  · simp [List.filter_append, filter_isBlank_backfillRows, isBlank, blankRow,
      dataRow, length_backfillRows]
  · dsimp only
    have harith : t0 + 1 + m = t0 + (m + 1) := by omega
    rw [harith]
  · intro r hr
    simp [backfillRows] at hr
    obtain ⟨i, hi, rfl⟩ := hr
    refine ⟨rfl, by simp [blankRow], by simp [blankRow]; omega⟩

theorem c2_backfill_rows_per_outage_witness :
    0 < 1 ∧
    ((runSem initState 0 (List.replicate 1 none ++ [some ((129 : ℤ), (21/10 : ℚ))])).rows.filter
        isBlank).length = 1 + 1 :=
  ⟨Nat.one_pos, (c2_backfill_rows_per_outage 0 1 129 (21/10) Nat.one_pos).1⟩

/-- C2: the claim "exactly D placeholder samples in total for that outage"
is false: a 1-second outage (off at second 0, back at second 1, logged
duration 1) leaves 2 placeholder rows in the store, not 1. -/
theorem c2_counterexample :
    ((runSem initState 0 [none, some (129, 21/10)]).rows.filter isBlank).length = 2 ∧
    (runSem initState 0 [none, some (129, 21/10)]).outageLog = [(0, 1, 1)] :=
  ⟨rfl, rfl⟩

/-! ## Frame decoding and the main-loop decode path (C6)

The only exception handler around the ingestion loop of `full_code.py` is
`except KeyboardInterrupt`; an `IndexError`/`ValueError` raised by the decode
expressions is modelled as an `Except.error` escaping the iteration. -/

/-- Python exception kinds relevant to the ingestion loop. -/
inductive PyErr where
  | indexError
  | valueError
  | fileNotFound
deriving DecidableEq

/-- Python `text.split(sep)` on a character list (structural-recursive model of
Python `str.split` with a single-character separator; note
`"".split(',') == ['']`, matched by the base case). -/
def splitOnChar (sep : Char) : List Char → List (List Char)
  | [] => [[]]
  | c :: rest =>
    if c = sep then [] :: splitOnChar sep rest
    else
      match splitOnChar sep rest with
      | [] => [[c]]
      | f :: fs => (c :: f) :: fs

/-- Strip leading and trailing spaces (Python's numeric constructors accept
surrounding whitespace). -/
def trimChars (ds : List Char) : List Char :=
  ((ds.dropWhile (· = ' ')).reverse.dropWhile (· = ' ')).reverse

/-- A nonempty all-digit field, as a `Nat`. -/
def parseNat (ds : List Char) : Option Nat :=
  if !ds.isEmpty && ds.all Char.isDigit then
    some (ds.foldl (fun n c => 10 * n + (c.toNat - 48)) 0)
  else none

/-- Model of Python `int(s)`: surrounding whitespace, optional sign, decimal
digits.  (Exotic forms — underscores, other bases — do not occur in NMEA
frames and are not modelled.) -/
def pyInt (ds : List Char) : Option ℤ :=
  match trimChars ds with
  | '-' :: rest => (parseNat rest).map (fun n => -(n : ℤ))
  | '+' :: rest => (parseNat rest).map (fun n => (n : ℤ))
  | t => (parseNat t).map (fun n => (n : ℤ))

/-- Model of Python `float(s)` on plain decimal notation
(`[ws][sign]digits[.digits][ws]`), the format of the sensor speed field. -/
def pyFloat (ds : List Char) : Option ℚ :=
  let t := trimChars ds
  let sgn : ℚ := match t with
    | '-' :: _ => -1
    | _ => 1
  let u : List Char := match t with
    | '-' :: r => r
    | '+' :: r => r
    | _ => t
  match splitOnChar '.' u with
  | [w] => (parseNat w).map (fun n => sgn * n)
  | [w, f] =>
    if w.isEmpty && f.isEmpty then none
    else
      match (if w.isEmpty then some 0 else parseNat w),
            (if f.isEmpty then some 0 else parseNat f) with
      | some a, some b => some (sgn * ((a : ℚ) + (b : ℚ) / (10 : ℚ) ^ f.length))
      | _, _ => none
  | _ => none

/-- The decode expressions of the main loop, in source order:
`data_split = raw_data.split(',')`, `wd = data_split[1]`, `int(wd)`,
`ws = data_split[3]`, `float(ws)`.  A missing field raises `IndexError`, a
non-numeric field raises `ValueError`. -/
def decodeFrame (s : String) : Except PyErr (ℤ × ℚ) :=
  let data_split := splitOnChar ',' s.data
  match data_split.get? 1 with
  | none => .error .indexError
  | some wd =>
    match pyInt wd with
    | none => .error .valueError
    | some wdi =>
      match data_split.get? 3 with
      | none => .error .indexError
      | some ws =>
        match pyFloat ws with
        | none => .error .valueError
        | some wsq => .ok (wdi, wsq)

/-- One iteration of the ingestion loop on a received frame string: an empty
read is "no data" (`check_sensor` outage path); a nonempty frame goes through
`check_sensor`'s data path and then the decode expressions, whose exceptions
are caught by no handler (only `KeyboardInterrupt` is) and abort the run.
On a crash the rows buffered in memory are lost, which the error outcome
models by discarding the state. -/
noncomputable def loopIter (st : IngestState) (now : Nat) (frame : String) :
    Except PyErr IngestState :=
  if frame = "" then .ok (step st now none)
  else
    match decodeFrame frame with
    | .error e => .error e
    | .ok (wd, ws) => .ok (step st now (some (wd, ws)))

/-- C6: the claim "malformed frames are dropped and the ingestion loop
continues without crashing" is false: a received frame with no comma-separated
direction field makes `data_split[1]` raise `IndexError`, which no handler in
the loop catches — the iteration aborts instead of continuing. -/
theorem c6_counterexample :
    loopIter initState 0 "$IIMWV" = .error PyErr.indexError := rfl

/-- C6 (amended): a received but malformed (nonempty) frame is not handled:
the decode raises `IndexError`/`ValueError`, no sample is appended, and the
exception escapes the iteration — the ingestion loop crashes rather than
continuing.  Only an empty read is handled (as "no data", by the Outage
Tracker path). -/
theorem c6_malformed_frame_crashes (st : IngestState) (now : Nat)
    (frame : String) (e : PyErr) (hne : frame ≠ "")
    (hdec : decodeFrame frame = .error e) :
    loopIter st now frame = .error e := by
  simp [loopIter, hne, hdec]

theorem c6_malformed_frame_crashes_witness :
    ("$IIMWV,12X,R,002.10,M,A*,CC" : String) ≠ "" ∧
    loopIter initState 0 "$IIMWV,12X,R,002.10,M,A*,CC" = .error PyErr.valueError :=
  ⟨by decide,
   c6_malformed_frame_crashes initState 0 "$IIMWV,12X,R,002.10,M,A*,CC"
     PyErr.valueError (by decide) (by rfl)⟩

/-! ## Day rollover (C7, C8) -/

/-- The on-disk raw partitions: day index → file content (or missing). -/
def FileSys : Type := Nat → Option (List RawRow)

/-- The rollover filter of the main loop: rows of the previous day with
`DateTime` in `[previousDate 23:00:00, previousDate 23:59:59]`. -/
def lastHourRow (prevDay : Nat) (r : RawRow) : Bool :=
  decide (86400 * prevDay + 82800 ≤ r.time) &&
    decide (r.time ≤ 86400 * prevDay + 86399)

/-- The rewrite performed on the new day's partition:
`pd.concat([pday_data, new_day_df])` — the carried-over last hour of the
previous day, prepended to the already-written new-day rows. -/
def rollover (pday nday : List RawRow) (prevDay : Nat) : List RawRow :=
  pday.filter (lastHourRow prevDay) ++ nday

/-- The day-rollover block of the main loop: `pd.read_csv(past_day_path)`
raises `FileNotFoundError` if the previous partition is missing (no handler
— only `KeyboardInterrupt` is caught); otherwise the new partition is read
and rewritten as the concatenation above. -/
def rolloverBlock (fs : FileSys) (prevDay currDay : Nat) : Except PyErr FileSys :=
  match fs prevDay with
  | none => .error .fileNotFound
  | some pday =>
    match fs currDay with
    | none => .error .fileNotFound
    | some nday =>
      .ok (fun d => if d = currDay then some (rollover pday nday prevDay) else fs d)

/-- C7: the claim "if the previous day's partition is missing, rollover is
skipped silently and ingestion continues" is false: with no partition files
at all, the rollover block raises `FileNotFoundError` instead of returning
the file system unchanged. -/
theorem c7_counterexample :
    rolloverBlock (fun _ => none) 0 1 = .error PyErr.fileNotFound := rfl

/-- C7 (amended): if the previous day's partition file is missing when day
rollover runs, `pd.read_csv` raises `FileNotFoundError`; the ingestion loop
has no handler for it, so rollover is not skipped — the process aborts. -/
theorem c7_missing_partition_aborts (fs : FileSys) (prevDay currDay : Nat)
    (h : fs prevDay = none) :
    rolloverBlock fs prevDay currDay = .error PyErr.fileNotFound := by
  simp [rolloverBlock, h]

theorem c7_missing_partition_aborts_witness :
    (fun d => if d = 1 then some ([] : List RawRow) else none) 0 = none ∧
    rolloverBlock (fun d => if d = 1 then some ([] : List RawRow) else none) 0 1
      = .error PyErr.fileNotFound :=
  ⟨rfl, c7_missing_partition_aborts _ 0 1 rfl⟩

/-- C8: the claim "running rollover twice on the same (previousDate,
currentDate) pair leaves exactly one copy of the carried-over hour" is
false: with one previous-day row at 23:00:00 (second 82800 of day 0) and an
empty new partition, the second application prepends the carried hour again,
leaving two copies of the row. -/
theorem c8_counterexample :
    rollover [blankRow 82800] (rollover [blankRow 82800] [] 0) 0
      = [blankRow 82800, blankRow 82800] ∧
    [blankRow 82800, blankRow 82800] ≠ [blankRow 82800] :=
  ⟨rfl, by simp⟩

/-- C8 (amended): `rollover` is not idempotent: a second run on the same
pair prepends the carried-over 23:00:00–23:59:59 hour once more, so the new
partition grows by the carried hour again (two copies in total).  The
guard `previous_date = current_date`, reset right after the block runs, is
what keeps the loop from ever executing it twice. -/
theorem c8_rollover_duplicates_carried_hour (pday nday : List RawRow) (d : Nat) :
    rollover pday (rollover pday nday d) d
      = pday.filter (lastHourRow d) ++ (pday.filter (lastHourRow d) ++ nday) ∧
    (rollover pday (rollover pday nday d) d).length
      = (pday.filter (lastHourRow d)).length + (rollover pday nday d).length := by
  constructor <;> simp [rollover]

/-! ## Resilient reader `get_data` (C10) -/

/-- Outcome of one `pd.read_csv(path)` attempt inside `get_data`:
success with rows, `FileNotFoundError`, `pd.errors.EmptyDataError`, or any
other exception (abstracted by a numeric code). -/
inductive ReadResult (α : Type) where
  | ok (rows : α)
  | fileNotFound
  | emptyData
  | other (e : Nat)
deriving DecidableEq

/-- The retry loop `while attempt < max_retry` of `get_data`: success returns the
rows; `FileNotFoundError` and `EmptyDataError` increment `attempt` and retry
(the `time.sleep(delay)` has no effect on the result and is not modelled);
any other exception is uncaught and propagates; falling off the loop returns
Python's implicit `None`. -/
def get_data_loop {α : Type} (reads : Nat → ReadResult α)
    (attempt max_retry : Nat) : Except Nat (Option α) :=
  if h : attempt < max_retry then
    match reads attempt with
    | .ok rows => .ok (some rows)
    | .fileNotFound => get_data_loop reads (attempt + 1) max_retry
    | .emptyData => get_data_loop reads (attempt + 1) max_retry
    | .other e => .error e
  else .ok none
termination_by max_retry - attempt
decreasing_by all_goals omega

/-- Source `get_data(path, max_retry, delay)`: run the retry loop from `attempt = 0`.
`reads k` is the outcome of the k-th `pd.read_csv` attempt on the path. -/
def get_data {α : Type} (reads : Nat → ReadResult α) (max_retry : Nat) :
    Except Nat (Option α) :=
  get_data_loop reads 0 max_retry

/-- An exception kind that `get_data` catches and retries. -/
def retriable {α : Type} (r : ReadResult α) : Prop :=
  r = .fileNotFound ∨ r = .emptyData

theorem get_data_loop_exhaust {α : Type} (reads : Nat → ReadResult α)
    (m : Nat) :
    ∀ (fuel attempt : Nat), m - attempt ≤ fuel →
      (∀ k, attempt ≤ k → k < m → retriable (reads k)) →
      get_data_loop reads attempt m = .ok none := by
  intro fuel
  induction fuel with
  | zero =>
    intro attempt hle _
    rw [get_data_loop]
    have : ¬ attempt < m := by omega
    simp [this]
  | succ f ih =>
    intro attempt hle hr
    rw [get_data_loop]
    by_cases h : attempt < m
    · rcases hr attempt le_rfl h with h1 | h1 <;>
        simp only [h, dif_pos, h1] <;>
        exact ih (attempt + 1) (by omega) (fun k hk1 hk2 => hr k (by omega) hk2)
    · simp [h]

theorem get_data_loop_other {α : Type} (reads : Nat → ReadResult α)
    (m : Nat) (e : Nat) :
    ∀ (fuel attempt j : Nat), j - attempt ≤ fuel → attempt ≤ j → j < m →
      reads j = .other e →
      (∀ k, attempt ≤ k → k < j → retriable (reads k)) →
      get_data_loop reads attempt m = .error e := by
  intro fuel
  induction fuel with
  | zero =>
    intro attempt j hfuel hle hlt hj hr
    have : attempt = j := by omega
    subst this
    rw [get_data_loop]
    simp [hlt, hj]
  | succ f ih =>
    intro attempt j hfuel hle hlt hj hr
    by_cases heq : attempt = j
    · subst heq
      rw [get_data_loop]
      simp [hlt, hj]
    · have hlt' : attempt < m := by omega
      rw [get_data_loop]
      rcases hr attempt le_rfl (by omega) with h1 | h1 <;>
        simp only [hlt', dif_pos, h1] <;>
        exact ih (attempt + 1) j (by omega) (by omega) hlt hj
          (fun k hk1 hk2 => hr k (by omega) hk2)

/-- C10 (confirmed): if every one of the `max_retry` (default 20) read
attempts fails with `FileNotFoundError` or `EmptyDataError`, `get_data`
returns Python's implicit `None` — not an exception and not rows; and an
exception of any other kind propagates out of `get_data` on the attempt
where it occurs. -/
theorem c10_get_data_exhaustion_and_propagation {α : Type}
    (reads : Nat → ReadResult α) (m : Nat) :
    ((∀ k, k < m → retriable (reads k)) → get_data reads m = .ok none) ∧
    (∀ j e, j < m → reads j = .other e →
      (∀ k, k < j → retriable (reads k)) → get_data reads m = .error e) := by
  constructor
  · intro hr
    exact get_data_loop_exhaust reads m m 0 (by omega)
      (fun k _ hk2 => hr k hk2)
  · intro j e hj hje hr
    exact get_data_loop_other reads m e j 0 j (by omega) (by omega) hj hje
      (fun k _ hk2 => hr k hk2)

theorem c10_get_data_exhaustion_and_propagation_witness :
    get_data (fun _ => (ReadResult.fileNotFound : ReadResult (List String))) 20
      = .ok none ∧
    get_data (fun k => if k < 3 then (ReadResult.emptyData : ReadResult (List String))
        else .other 7) 20 = .error 7 := by
  constructor
  · exact (c10_get_data_exhaustion_and_propagation
      (fun _ => (ReadResult.fileNotFound : ReadResult (List String))) 20).1
      (fun k _ => Or.inl rfl)
  · refine (c10_get_data_exhaustion_and_propagation
      (fun k => if k < 3 then (ReadResult.emptyData : ReadResult (List String))
        else .other 7) 20).2 3 7 (by omega) (by simp) ?_
    intro k hk
    exact Or.inr (by simp [hk])

/-! ## Aggregation engine (`Postprocess.py`): C3, C4

The day's raw series is the `WindSpeed (m/s)` column indexed at 1 Hz; the
embedding assumes the series starts on a minute boundary, so the
`.resample("1min")` buckets are consecutive groups of 60 samples. -/

/-- The non-NaN values of a series segment. -/
def presentVals (l : List (Option ℚ)) : List ℚ := l.filterMap id

def countPresent (l : List (Option ℚ)) : Nat := (presentVals l).length

/-- Null-aware mean: mean of the non-NaN values, NaN when there are none
(pandas `.mean()` within a resample bucket). -/
def meanPresent (l : List (Option ℚ)) : Option ℚ :=
  if (presentVals l).isEmpty then none
  else some ((presentVals l).sum / ((presentVals l).length : ℚ))

/-- Null-aware max: max of the non-NaN values, NaN when there are none
(pandas `.max()` within a resample bucket). -/
def maxPresent (l : List (Option ℚ)) : Option ℚ :=
  match presentVals l with
  | [] => none
  | v :: vs => some (vs.foldl max v)

/-- The in-window slice ending at index `i` for a fixed window of size `w`
(pandas `rolling(window=w)`). -/
def windowAt (xs : List (Option ℚ)) (w i : Nat) : List (Option ℚ) :=
  (xs.take (i + 1)).drop (i + 1 - w)

/-- Model of `series.rolling(window=w).agg(f)`: output `i` is `f` of the window slice
when that slice holds at least `min_periods = w` non-NaN observations (the
pandas default for integer windows), NaN otherwise. -/
def rollingApply (f : List (Option ℚ) → Option ℚ) (w : Nat)
    (xs : List (Option ℚ)) : List (Option ℚ) :=
  (List.range xs.length).map (fun i =>
    if w ≤ countPresent (windowAt xs w i) then f (windowAt xs w i) else none)

/-- Model of `.resample("1min")` buckets of a minute-aligned 1 Hz series:
consecutive groups of 60 samples (the last possibly short). -/
def resampleBuckets (xs : List (Option ℚ)) : List (List (Option ℚ)) :=
  (List.range ((xs.length + 59) / 60)).map (fun k => (xs.drop (60 * k)).take 60)

def resampleMean (xs : List (Option ℚ)) : List (Option ℚ) :=
  (resampleBuckets xs).map meanPresent

def resampleMax (xs : List (Option ℚ)) : List (Option ℚ) :=
  (resampleBuckets xs).map maxPresent

/-- Integer floor of a rational (`den` is positive, so Euclidean division of
the numerator by the denominator is the floor). -/
def ratFloor (q : ℚ) : ℤ := Int.ediv q.num q.den

/-- Round to the nearest integer, halves up. -/
def roundHalfUp (q : ℚ) : ℤ := ratFloor (q + 1/2)

/-- Python `.round(4)` on a rational value.  (numpy rounds ties half-to-even; no
value in any statement below lies on a tie, where the two conventions agree.) -/
def roundQ4 (q : ℚ) : ℚ := (roundHalfUp (q * 10000) : ℚ) / 10000

def roundSeries (xs : List (Option ℚ)) : List (Option ℚ) :=
  xs.map (Option.map roundQ4)

/-- Source: `roll_avg(df, window) = df.rolling(window).mean().resample("1min").mean().round(4)`. -/
def roll_avg (df : List (Option ℚ)) (window : Nat) : List (Option ℚ) :=
  roundSeries (resampleMean (rollingApply meanPresent window df))

/-- Source: `roll_gust(df, window) = df.rolling(window).max().resample("1min").max()`. -/
def roll_gust (df : List (Option ℚ)) (window : Nat) : List (Option ℚ) :=
  resampleMax (rollingApply maxPresent window df)

/-- Source: `df["3 second gust"] = df["WindSpeed (m/s)"].rolling(window=3).mean().round(4)`. -/
def gust3sec (ws : List (Option ℚ)) : List (Option ℚ) :=
  roundSeries (rollingApply meanPresent 3 ws)

/-- Source: `ws_mean_1min = df["WindSpeed (m/s)"].resample('1min').mean().round(4)` —
note: a single-stage per-minute block mean, no rolling stage. -/
def ws_mean_1min (ws : List (Option ℚ)) : List (Option ℚ) :=
  roundSeries (resampleMean ws)

/-- Source: `ws_mean_10min = roll_avg(df["WindSpeed (m/s)"], window=600)`. -/
def ws_mean_10min (ws : List (Option ℚ)) : List (Option ℚ) := roll_avg ws 600

/-- Source: `ws_mean_1hour = roll_avg(df["WindSpeed (m/s)"], window=3600)`. -/
def ws_mean_1hour (ws : List (Option ℚ)) : List (Option ℚ) := roll_avg ws 3600

/-- Source: `gst_1min = df["3 second gust"].resample("1min").max()`. -/
def gst_1min (ws : List (Option ℚ)) : List (Option ℚ) := resampleMax (gust3sec ws)

/-- Source: `gst_10min = roll_gust(df['3 second gust'], window=600)`. -/
def gst_10min (ws : List (Option ℚ)) : List (Option ℚ) := roll_gust (gust3sec ws) 600

/-- Source: `gst_1hour = roll_gust(df['3 second gust'], window=600)` — as written in
the source: the window argument is 600, not 3600. -/
def gst_1hour (ws : List (Option ℚ)) : List (Option ℚ) := roll_gust (gust3sec ws) 600

/-- Modelled from the spec (§4.4 item 3, long window): gust(60 min) takes the
rolling max of the gust-base series over a trailing window of N = 3600
samples, then per-minute bucket maxima. -/
def gust_1hour_spec (ws : List (Option ℚ)) : List (Option ℚ) :=
  roll_gust (gust3sec ws) 3600

/-- Modelled from the spec (§4.4 item 1 applied at W = 1): two-stage mean for
the 1-minute window — trailing moving average with N = 60·1 = 60 over the raw
1 Hz series, then down-sampling to one value per minute. -/
def ws_mean_1min_spec (ws : List (Option ℚ)) : List (Option ℚ) := roll_avg ws 60

/-! ### Evaluation toolkit for the aggregation pipeline -/

theorem presentVals_replicate_some (n : Nat) (c : ℚ) :
    presentVals (List.replicate n (some c)) = List.replicate n c := by
  simp [presentVals, List.filterMap_replicate]

theorem presentVals_replicate_none (n : Nat) :
    presentVals (List.replicate n (none : Option ℚ)) = [] := by
  simp [presentVals, List.filterMap_replicate]

theorem countPresent_replicate_some (n : Nat) (c : ℚ) :
    countPresent (List.replicate n (some c)) = n := by
  simp [countPresent, presentVals_replicate_some]

theorem countPresent_le_length (l : List (Option ℚ)) :
    countPresent l ≤ l.length := by
  simpa [countPresent, presentVals] using List.length_filterMap_le id l

theorem meanPresent_replicate_some (n : Nat) (c : ℚ) (h : 0 < n) :
    meanPresent (List.replicate n (some c)) = some c := by
  have hne : n ≠ 0 := by omega
  rw [meanPresent, presentVals_replicate_some,
    if_neg (by simp [List.isEmpty_replicate]; omega)]
  rw [List.sum_replicate, List.length_replicate, nsmul_eq_mul,
    mul_div_cancel_left₀ _ (show (n : ℚ) ≠ 0 by exact_mod_cast hne)]

theorem foldl_max_replicate (m : Nat) (c : ℚ) :
    List.foldl max c (List.replicate m c) = c := by
  induction m with
  | zero => rfl
  | succ k ih => rw [List.replicate_succ, List.foldl_cons, max_self]; exact ih

theorem maxPresent_replicate_some (n : Nat) (c : ℚ) (h : 0 < n) :
    maxPresent (List.replicate n (some c)) = some c := by
  obtain ⟨m, rfl⟩ : ∃ m, n = m + 1 := ⟨n - 1, by omega⟩
  rw [maxPresent, presentVals_replicate_some, List.replicate_succ]
  simp [foldl_max_replicate]

theorem maxPresent_replicate_none (n : Nat) :
    maxPresent (List.replicate n (none : Option ℚ)) = none := by
  rw [maxPresent, presentVals_replicate_none]

theorem ratFloor_eq_floor (q : ℚ) : ratFloor q = ⌊q⌋ := by
  rw [Rat.floor_def]; rfl

theorem roundHalfUp_eq_round (q : ℚ) : roundHalfUp q = round q := by
  rw [round_eq, roundHalfUp, ratFloor_eq_floor]

theorem roundQ4_intCast (z : ℤ) : roundQ4 (z : ℚ) = z := by
  rw [roundQ4, roundHalfUp_eq_round]
  have h : ((z : ℚ) * 10000) = ((z * 10000 : ℤ) : ℚ) := by push_cast; ring
  rw [h, round_intCast]
  push_cast
  field_simp

theorem roundQ4_one : roundQ4 1 = 1 := by
  simpa using roundQ4_intCast 1

theorem roundQ4_five : roundQ4 5 = 5 := by
  have := roundQ4_intCast 5
  norm_num at this
  exact this

theorem length_rollingApply (f : List (Option ℚ) → Option ℚ) (w : Nat)
    (xs : List (Option ℚ)) : (rollingApply f w xs).length = xs.length := by
  simp [rollingApply]

theorem get?_replicate {α : Type} (a : α) (n i : Nat) :
    (List.replicate n a).get? i = if i < n then some a else none := by
  induction n generalizing i with
  | zero => simp
  | succ m ih =>
    rw [List.replicate_succ]
    match i with
    | 0 => simp
    | j + 1 =>
      rw [List.get?_cons_succ, ih]
      by_cases hj : j < m <;> simp [hj, Nat.succ_lt_succ_iff]

/-- A rolling window never fires when the series is shorter than the window:
fewer than `min_periods = w` observations can ever be in view. -/
theorem rollingApply_of_short (f : List (Option ℚ) → Option ℚ) (w : Nat)
    (xs : List (Option ℚ)) (h : xs.length < w) :
    rollingApply f w xs = List.replicate xs.length none := by
  rw [rollingApply]
  have hc : ∀ i ∈ List.range xs.length,
      (if w ≤ countPresent (windowAt xs w i) then f (windowAt xs w i) else none)
        = (fun _ => (none : Option ℚ)) i := by
    intro i _
    have h1 : countPresent (windowAt xs w i) ≤ xs.length := by
      calc countPresent (windowAt xs w i) ≤ (windowAt xs w i).length :=
            countPresent_le_length _
        _ ≤ (xs.take (i + 1)).length := by
            rw [windowAt, List.length_drop]; omega
        _ ≤ xs.length := by simp
    have : ¬ w ≤ countPresent (windowAt xs w i) := by omega
    simp [this]
  rw [List.map_congr_left hc, List.map_const', List.length_range]

theorem presentVals_cons_none (l : List (Option ℚ)) :
    presentVals (none :: l) = presentVals l := rfl

theorem meanPresent_cons_none (l : List (Option ℚ)) :
    meanPresent (none :: l) = meanPresent l := by
  rw [meanPresent, meanPresent, presentVals_cons_none]

theorem maxPresent_cons_none (l : List (Option ℚ)) :
    maxPresent (none :: l) = maxPresent l := by
  rw [maxPresent, maxPresent, presentVals_cons_none]

theorem meanPresent_replicate_none (n : Nat) :
    meanPresent (List.replicate n (none : Option ℚ)) = none := by
  rw [meanPresent, presentVals_replicate_none]
  rfl

/-- Evaluation of both 1-minute mean-speed variants on the 61-second series
`NaN, 1, 1, …, 1` (one absent second followed by a full minute of 1 m/s):
the source's single-stage block mean reports both minutes as 1, while the
spec's two-stage procedure (rolling N = 60 first) reports the first minute
absent. -/
theorem ws_mean_1min_eval :
    ws_mean_1min (none :: List.replicate 60 (some (1 : ℚ))) = [some 1, some 1] ∧
    ws_mean_1min_spec (none :: List.replicate 60 (some (1 : ℚ)))
      = [none, some 1] := by
  constructor
  · -- code side: plain per-minute block means
    have hb : resampleBuckets (none :: List.replicate 60 (some (1 : ℚ)))
        = [none :: List.replicate 59 (some 1), [some 1]] := by decide
    rw [ws_mean_1min, resampleMean, hb]
    rw [List.map_cons, List.map_cons, List.map_nil, meanPresent_cons_none]
    rw [show (List.replicate 59 (some (1:ℚ))) = List.replicate 59 (some 1) from rfl]
    rw [meanPresent_replicate_some 59 1 (by omega)]
    rw [show ([some (1:ℚ)]) = List.replicate 1 (some 1) from rfl]
    rw [meanPresent_replicate_some 1 1 (by omega)]
    simp [roundSeries, roundQ4_one]
  · -- spec side: rolling mean with N = 60 first, then block means
    set xs : List (Option ℚ) := none :: List.replicate 60 (some 1) with hxs
    have hlen : xs.length = 61 := by simp [hxs]
    set g : Nat → Option ℚ := fun i =>
      if 60 ≤ countPresent (windowAt xs 60 i) then meanPresent (windowAt xs 60 i)
      else none with hg
    have hys : rollingApply meanPresent 60 xs = (List.range 61).map g := by
      rw [rollingApply, hlen]
    have hwin : ∀ i < 60, windowAt xs 60 i = xs.take (i + 1) := by
      intro i hi
      rw [windowAt, show i + 1 - 60 = 0 by omega, List.drop_zero]
    have hg_low : ∀ i < 60, g i = none := by
      intro i hi
      have htake : xs.take (i + 1) = none :: List.replicate i (some 1) := by
        rw [hxs, List.take_succ_cons, List.take_replicate,
          inf_eq_left.mpr (show i ≤ 60 by omega)]
      have hcount : countPresent (windowAt xs 60 i) = i := by
        rw [hwin i hi, htake, countPresent, presentVals_cons_none,
          presentVals_replicate_some, List.length_replicate]
      rw [hg]
      simp only [hcount]
      have : ¬ (60 ≤ i) := by omega
      simp [this]
    have hg60 : g 60 = some 1 := by
      have hwin60 : windowAt xs 60 60 = List.replicate 60 (some 1) := by
        rw [windowAt, List.take_of_length_le (by omega), hxs]
        rfl
      rw [hg]
      simp only [hwin60, countPresent_replicate_some]
      rw [if_pos (by omega), meanPresent_replicate_some 60 1 (by omega)]
    have hb0 : ((List.range 61).map g).take 60 = List.replicate 60 none := by
      rw [← List.map_take, List.take_range, inf_eq_left.mpr (show (60:Nat) ≤ 61 by omega)]
      rw [List.map_congr_left (g := fun _ => (none : Option ℚ))
        (fun i hi => hg_low i (List.mem_range.mp hi))]
      simp [List.map_const']
    have hb1 : (((List.range 61).map g).drop 60).take 60 = [some 1] := by
      rw [show (61 : Nat) = 60 + 1 from rfl, List.range_succ, List.map_append,
        List.map_cons, List.map_nil]
      rw [List.drop_left' (by simp)]
      rw [List.take_of_length_le (by simp)]
      simp [hg60]
    have hbuckets : resampleBuckets ((List.range 61).map g)
        = [List.replicate 60 none, [some 1]] := by
      rw [resampleBuckets]
      rw [show (((List.range 61).map g).length + 59) / 60 = 2 from by simp]
      rw [show List.range 2 = [0, 1] from rfl]
      rw [List.map_cons, List.map_cons, List.map_nil]
      rw [show (60 * 0 : Nat) = 0 from rfl, show (60 * 1 : Nat) = 60 from rfl,
        List.drop_zero]
      rw [hb0, hb1]
    rw [ws_mean_1min_spec, roll_avg, resampleMean, hys, hbuckets]
    rw [List.map_cons, List.map_cons, List.map_nil]
    rw [meanPresent_replicate_none,
      show ([some (1:ℚ)]) = List.replicate 1 (some 1) from rfl,
      meanPresent_replicate_some 1 1 (by omega)]
    simp [roundSeries, roundQ4_one]

/-- C4: the claim "for every window W, including the 1-minute window, the
mean speed is a two-stage (rolling N = 60·W, then per-minute) computation"
is false: on the series `NaN, 1, 1, …, 1` (61 seconds) the source's
`ws_mean_1min` — a plain `resample('1min').mean()` — reports `[1, 1]`,
while the two-stage procedure at W = 1 reports `[absent, 1]`. -/
theorem c4_counterexample :
    ws_mean_1min (none :: List.replicate 60 (some (1 : ℚ))) = [some 1, some 1] ∧
    ws_mean_1min_spec (none :: List.replicate 60 (some (1 : ℚ))) = [none, some 1] ∧
    ws_mean_1min (none :: List.replicate 60 (some (1 : ℚ)))
      ≠ ws_mean_1min_spec (none :: List.replicate 60 (some (1 : ℚ))) := by
  refine ⟨ws_mean_1min_eval.1, ws_mean_1min_eval.2, ?_⟩
  rw [ws_mean_1min_eval.1, ws_mean_1min_eval.2]
  simp

/-- C4 (amended): the two-stage mean (trailing moving average with
N = 60·W, then per-minute block mean) is used for the 10- and 60-minute
windows only; the 1-minute mean speed is a single-stage per-minute block
mean of the raw series, which differs from the two-stage procedure at W = 1
(shown on a series with one absent sample). -/
theorem c4_mean_stages :
    (∀ ws, ws_mean_1min ws = roundSeries (resampleMean ws)) ∧
    (∀ ws, ws_mean_10min ws
        = roundSeries (resampleMean (rollingApply meanPresent 600 ws))) ∧
    (∀ ws, ws_mean_1hour ws
        = roundSeries (resampleMean (rollingApply meanPresent 3600 ws))) ∧
    ws_mean_1min (none :: List.replicate 60 (some (1 : ℚ)))
      ≠ ws_mean_1min_spec (none :: List.replicate 60 (some (1 : ℚ))) := by
  refine ⟨fun _ => rfl, fun _ => rfl, fun _ => rfl, ?_⟩
  rw [ws_mean_1min_eval.1, ws_mean_1min_eval.2]
  simp

/-! ### C3: the 1-hour gust window -/

/-- The 3-second gust base of a constant 5 m/s series of 602 seconds:
absent for the first two seconds (short window), 5 afterwards. -/
theorem gust3sec_replicate602 :
    gust3sec (List.replicate 602 (some (5 : ℚ)))
      = List.replicate 2 none ++ List.replicate 600 (some 5) := by
  set X : List (Option ℚ) := List.replicate 602 (some (5 : ℚ)) with hX
  set g : Nat → Option ℚ := fun i =>
    if 3 ≤ countPresent (windowAt X 3 i) then meanPresent (windowAt X 3 i)
    else none with hg
  have hgl : ∀ i, i < 2 → g i = none := by
    intro i hi
    have hwin : windowAt X 3 i = List.replicate (i + 1) (some 5) := by
      rw [windowAt, hX, show i + 1 - 3 = 0 by omega, List.drop_zero,
        List.take_replicate, inf_eq_left.mpr (by omega)]
    rw [hg]
    simp only [hwin, countPresent_replicate_some]
    rw [if_neg (by omega)]
  have hgh : ∀ i, 2 ≤ i → i < 602 → g i = some 5 := by
    intro i h2 h602
    have hwin : windowAt X 3 i = List.replicate 3 (some 5) := by
      rw [windowAt, hX, List.take_replicate, inf_eq_left.mpr (by omega),
        List.drop_replicate, show i + 1 - (i + 1 - 3) = 3 by omega]
    rw [hg]
    simp only [hwin, countPresent_replicate_some]
    rw [if_pos (by omega), meanPresent_replicate_some 3 5 (by omega)]
  have hroll : rollingApply meanPresent 3 X = (List.range 602).map g := by
    rw [rollingApply, hX, List.length_replicate]
  rw [gust3sec, hroll, roundSeries, List.map_map]
  apply List.ext_get?
  intro n
  rw [List.get?_map]
  by_cases h1 : n < 2
  · rw [List.get?_range (by omega), List.get?_append (by simpa using h1),
      get?_replicate, if_pos h1]
    simp only [Option.map_some', Function.comp_apply, hgl n h1,
      Option.map_none']
  · by_cases h2 : n < 602
    · rw [List.get?_range h2,
        List.get?_append_right (by rw [List.length_replicate]; omega),
        get?_replicate, List.length_replicate,
        if_pos (show n - 2 < 600 by omega)]
      simp only [Option.map_some', Function.comp_apply, hgh n (by omega) h2]
      simp [roundQ4_five]
    · have e1 : (List.range 602).get? n = none :=
        List.get?_eq_none.mpr (by rw [List.length_range]; omega)
      have e2 : (List.replicate 2 (none : Option ℚ)
          ++ List.replicate 600 (some 5)).get? n = none :=
        List.get?_eq_none.mpr
          (by rw [List.length_append, List.length_replicate,
                List.length_replicate]; omega)
      rw [e1, e2]
      rfl

/-- Evaluation of the last minute bucket (index 10) of both 1-hour gust
variants on 602 seconds of constant 5 m/s: the source's window-600 version
already reports a gust there, the spec's window-3600 version still reports
absent (fewer than 3600 observations exist). -/
theorem gst_1hour_eval :
    (gst_1hour (List.replicate 602 (some (5 : ℚ)))).get? 10 = some (some 5) ∧
    (gust_1hour_spec (List.replicate 602 (some (5 : ℚ)))).get? 10 = some none := by
  have hgb := gust3sec_replicate602
  set gb : List (Option ℚ) :=
    List.replicate 2 none ++ List.replicate 600 (some 5) with hgbdef
  have hlen : gb.length = 602 := by
    rw [hgbdef, List.length_append, List.length_replicate, List.length_replicate]
  set g : Nat → Option ℚ := fun i =>
    if 600 ≤ countPresent (windowAt gb 600 i) then maxPresent (windowAt gb 600 i)
    else none with hg
  have hroll : rollingApply maxPresent 600 gb = (List.range 602).map g := by
    rw [rollingApply, hlen]
  have hwin600 : windowAt gb 600 600
      = List.replicate 1 none ++ List.replicate 599 (some 5) := by
    rw [windowAt, hgbdef, List.take_append_eq_append_take,
      List.take_of_length_le (by rw [List.length_replicate]; omega),
      List.length_replicate, List.take_replicate,
      List.drop_append_eq_append_drop, List.drop_replicate,
      List.length_replicate, List.drop_replicate]
    norm_num
  have hcount600 : countPresent (windowAt gb 600 600) = 599 := by
    rw [hwin600, countPresent, presentVals, List.filterMap_append]
    rw [show List.filterMap id (List.replicate 1 (none : Option ℚ)) = [] from
          presentVals_replicate_none 1,
      show List.filterMap id (List.replicate 599 (some (5 : ℚ)))
          = List.replicate 599 5 from presentVals_replicate_some 599 5]
    simp
  have hg600 : g 600 = none := by
    rw [hg]
    exact if_neg (by rw [hcount600]; omega)
  have hg601 : g 601 = some 5 := by
    have hwin : windowAt gb 600 601 = List.replicate 600 (some 5) := by
      rw [windowAt, List.take_of_length_le (by rw [hlen]), hgbdef,
        show (601 + 1 - 600 : Nat) = 2 from rfl]
      rw [List.drop_left' (by rw [List.length_replicate])]
    have hcnt : 600 ≤ countPresent (windowAt gb 600 601) := by
      rw [hwin, countPresent_replicate_some]
    simp only [hg]
    rw [if_pos hcnt, hwin, maxPresent_replicate_some 600 5 (by omega)]
  constructor
  · rw [gst_1hour, roll_gust, hgb, hroll]
    rw [resampleMax, resampleBuckets]
    rw [show (((List.range 602).map g).length + 59) / 60 = 11 from by simp]
    rw [List.get?_map, List.get?_map, List.get?_range (by omega)]
    simp only [Option.map_some']
    rw [Option.some_inj]
    rw [show (60 * 10 : Nat) = 600 from rfl]
    have hdrop : ((List.range 602).map g).drop 600 = [g 600, g 601] := by
      rw [show (602 : Nat) = 601 + 1 from rfl, List.range_succ,
        show (601 : Nat) = 600 + 1 from rfl, List.range_succ]
      rw [List.map_append, List.map_append, List.append_assoc]
      rw [List.drop_left' (by rw [List.length_map, List.length_range])]
      simp
    rw [hdrop, List.take_of_length_le (by simp), hg600, hg601]
    rw [maxPresent_cons_none,
      show [some (5 : ℚ)] = List.replicate 1 (some 5) from rfl]
    exact maxPresent_replicate_some 1 5 (by omega)
  · rw [gust_1hour_spec, roll_gust, hgb]
    rw [rollingApply_of_short maxPresent 3600 gb (by rw [hlen]; omega), hlen]
    rw [resampleMax, resampleBuckets]
    rw [show ((List.replicate 602 (none : Option ℚ)).length + 59) / 60 = 11 from
      by simp]
    rw [List.get?_map, List.get?_map, List.get?_range (by omega)]
    simp only [Option.map_some']
    rw [Option.some_inj]
    rw [show (60 * 10 : Nat) = 600 from rfl, List.drop_replicate,
      List.take_replicate]
    exact maxPresent_replicate_none _

/-- C3: the source computes the 1-hour gust with a 600-sample (10-minute)
window — `gst_1hour = roll_gust(df['3 second gust'], window=600)` — so the
"1 hour" gust column is identical to the 10-minute one for every input, and
differs from the spec's N = 3600 computation: on 602 seconds of constant
5 m/s the code already reports a 1-hour gust of 5 in the last minute bucket
while the window-3600 computation still reports absent. -/
theorem c3_gust_window_slip :
    (∀ ws, gst_1hour ws = gst_10min ws) ∧
    (gst_1hour (List.replicate 602 (some (5 : ℚ)))).get? 10 = some (some 5) ∧
    (gust_1hour_spec (List.replicate 602 (some (5 : ℚ)))).get? 10 = some none ∧
    gst_1hour (List.replicate 602 (some (5 : ℚ)))
      ≠ gust_1hour_spec (List.replicate 602 (some (5 : ℚ))) := by
  refine ⟨fun _ => rfl, gst_1hour_eval.1, gst_1hour_eval.2, ?_⟩
  intro h
  have h1 := gst_1hour_eval.1
  rw [h, gst_1hour_eval.2] at h1
  simp at h1

/-! ## Vector-mean direction: `calc_degrees` (C5, C9) -/

/-- Model of `numpy.arctan2(y, x)` over the reals. -/
noncomputable def arctan2 (y x : ℝ) : ℝ :=
  if 0 < x then Real.arctan (y / x)
  else if x < 0 then
    (if 0 ≤ y then Real.arctan (y / x) + Real.pi
     else Real.arctan (y / x) - Real.pi)
  else
    (if 0 < y then Real.pi / 2 else if y < 0 then -(Real.pi / 2) else 0)

/-- Model of `np.degrees(r)`. -/
noncomputable def degreesOf (r : ℝ) : ℝ := r * 180 / Real.pi

/-- numpy `% 360` on reals (sign follows the positive modulus):
`x - 360*⌊x/360⌋`. -/
noncomputable def mod360 (x : ℝ) : ℝ := x - 360 * ⌊x / 360⌋

/-- Source `calc_degrees(u, v)` of `Postprocess.py`:
`angles = (np.degrees(np.arctan2(-v, -u)) % 360).round(0)` followed by
`angles[(u==0)&(v==0)] = np.nan`.  The masking assignment is applied after
the arithmetic, which per element equals this if-then-else.  Inputs are the
(rational) per-minute bucket means of U and V; the output is the whole-degree
nautical direction, absent on the calm mask. -/
noncomputable def calc_degrees (u v : ℚ) : Option ℤ :=
  if u = 0 ∧ v = 0 then none
  else some (round (mod360 (degreesOf (arctan2 (-(v : ℝ)) (-(u : ℝ))))))

theorem arctan2_zero_of_neg (x : ℝ) (hx : x < 0) : arctan2 0 x = Real.pi := by
  rw [arctan2, if_neg (by linarith), if_pos hx, if_pos le_rfl, zero_div,
    Real.arctan_zero, zero_add]

theorem arctan2_neg_of_zero (y : ℝ) (hy : y < 0) :
    arctan2 y 0 = -(Real.pi / 2) := by
  rw [arctan2, if_neg (lt_irrefl 0), if_neg (lt_irrefl 0),
    if_neg (by linarith), if_pos hy]

theorem degreesOf_pi : degreesOf Real.pi = 180 := by
  rw [degreesOf, mul_comm, mul_div_assoc, div_self Real.pi_ne_zero, mul_one]

theorem degreesOf_neg_pi_div_two : degreesOf (-(Real.pi / 2)) = -90 := by
  rw [degreesOf]
  rw [div_eq_iff Real.pi_ne_zero]
  ring

theorem mod360_eq_self (x : ℝ) (h1 : 0 ≤ x) (h2 : x < 360) : mod360 x = x := by
  have hf : ⌊x / 360⌋ = 0 := by
    rw [Int.floor_eq_zero_iff]
    constructor
    · positivity
    · rw [div_lt_one (by norm_num)]
      exact h2
  rw [mod360, hf]
  norm_num

theorem mod360_neg_ninety : mod360 (-90) = 270 := by
  have hf : ⌊(-90 : ℝ) / 360⌋ = -1 := by
    rw [Int.floor_eq_iff]
    constructor <;> norm_num
  rw [mod360, hf]
  norm_num

/-- Evaluation of `calc_degrees` on the two scenario inputs: (u,v) = (5,0) reads 180°,
(u,v) = (0,5) reads 270°. -/
theorem calc_degrees_eval :
    calc_degrees 5 0 = some 180 ∧ calc_degrees 0 5 = some 270 := by
  constructor
  · rw [calc_degrees, if_neg (by norm_num)]
    rw [show (-(((0 : ℚ)) : ℝ)) = 0 by norm_num,
      show (-(((5 : ℚ)) : ℝ)) = -5 by norm_num]
    rw [arctan2_zero_of_neg (-5) (by norm_num), degreesOf_pi,
      mod360_eq_self 180 (by norm_num) (by norm_num)]
    rw [show (180 : ℝ) = ((180 : ℤ) : ℝ) by norm_num, round_intCast]
  · rw [calc_degrees, if_neg (by norm_num)]
    rw [show (-(((5 : ℚ)) : ℝ)) = -5 by norm_num,
      show (-(((0 : ℚ)) : ℝ)) = 0 by norm_num]
    rw [arctan2_neg_of_zero (-5) (by norm_num), degreesOf_neg_pi_div_two,
      mod360_neg_ninety]
    rw [show (270 : ℝ) = ((270 : ℤ) : ℝ) by norm_num, round_intCast]

/-- C5: the claim "u = 5, v = 0 for a full window yields direction 270°" is
false: `calc_degrees(5, 0) = degrees(atan2(-0, -5)) % 360 = 180`, not 270. -/
theorem c5_counterexample :
    calc_degrees 5 0 = some 180 ∧ calc_degrees 5 0 ≠ some 270 :=
  ⟨calc_degrees_eval.1, by rw [calc_degrees_eval.1]; simp⟩

/-- C5 (amended): if every sample contributing to a full window has
u = 5, v = 0, the averaged components are ū = 5, v̄ = 0 and the reported
direction is 180° — wind from the south under the nautical convention
(u is the south→north component).  Wind from the west (270°) corresponds to
ū = 0, v̄ = 5, for which the code indeed reports 270°. -/
theorem c5_uv_direction (n : Nat) (h : 0 < n) :
    meanPresent (List.replicate n (some (5 : ℚ))) = some 5 ∧
    calc_degrees 5 0 = some 180 ∧
    calc_degrees 0 5 = some 270 :=
  ⟨meanPresent_replicate_some n 5 h, calc_degrees_eval.1, calc_degrees_eval.2⟩

theorem c5_uv_direction_witness :
    0 < 1 ∧ meanPresent (List.replicate 1 (some (5 : ℚ))) = some 5 :=
  ⟨Nat.one_pos, (c5_uv_direction 1 Nat.one_pos).1⟩

/-- C9 (confirmed): whenever the averaged components of a minute bucket are
ū = 0 and v̄ = 0, `calc_degrees` reports the direction absent (the
`(u==0)&(v==0)` mask), never a numeric value. -/
theorem c9_calm_direction_absent (u v : ℚ) (hu : u = 0) (hv : v = 0) :
    calc_degrees u v = none := by
  rw [calc_degrees, if_pos ⟨hu, hv⟩]

theorem c9_calm_direction_absent_witness : calc_degrees 0 0 = none :=
  c9_calm_direction_absent 0 0 rfl rfl
